import Mathlib

/-!
# Daily_Motion — verification of the statistics-and-streak core

Shallow embedding of the Stats Engine and Streak Tracker of the
Daily_Motion habit-tracking application (client activity context,
`part_002`, and the server routes in `MotionTracker/server/storage.ts`).

Modelling conventions:
* Calendar dates (`"yyyy-MM-dd"` strings in the source) are represented as
  `Int` day numbers (days since 1970-01-01, a Thursday).  Equality and
  order of the date strings coincide with equality and order of the day
  numbers, and "the day before `d`" is `d - 1`.
* JavaScript objects used as accumulator maps (`{ [key: string]: number }`)
  are represented as insertion-ordered association lists (`bump` below).
* JavaScript numbers arising from the percentage arithmetic are
  represented as `ℚ`; every constant the code multiplies or divides by
  (`0.25`, `0.5`, `100`, `30`) is exactly representable, so the rational
  model agrees with the double-precision computation on all integer
  minute counts in range.
* `minutes` counts and streak counters are `Nat` (non-negative integers
  in the source).
-/

/-- `ActivityType` record (`shared/schema` / `part_002` defaults):
a named, categorised kind of activity. -/
structure ActivityType where
  id : String
  userId : Option String
  name : String
  icon : String
  color : String
  category : String
  isDefault : Bool
deriving DecidableEq, Repr

/-- `ActivityLog` record: one timed entry.  The `notes`/`createdAt`/`userId`
fields are opaque to every computation verified here and are omitted. -/
structure ActivityLog where
  id : String
  activityTypeId : String
  date : Int
  minutes : Nat
deriving DecidableEq, Repr

/-- Streak record (`part_002` lines 23–27). -/
structure Streak where
  currentStreak : Nat
  longestStreak : Nat
  lastActiveDate : Option Int
deriving DecidableEq, Repr

/-- The default streak state `{ currentStreak: 0, longestStreak: 0,
lastActiveDate: null }` (`part_002` line 59, `storage.ts` line 481). -/
def initialStreak : Streak :=
  { currentStreak := 0, longestStreak := 0, lastActiveDate := none }

/-! ## Date helpers (date-fns `startOfWeek`/`endOfWeek`, `weekStartsOn: 1`) -/

/-- date-fns `getDay`: day of week with Sunday = 0, for a date given as a
day number since 1970-01-01 (a Thursday, so day 0 has `getDay = 4`). -/
def getDay (d : Int) : Int := (d + 4) % 7

/-- date-fns `startOfWeek(d, { weekStartsOn: 1 })`: the Monday of the week
containing `d`. -/
def startOfWeekMon (d : Int) : Int := d - (getDay d - 1 + 7) % 7

/-! ## Streak Tracker (`part_002` lines 74–97)

The body of `updateStreak` computes
`today = format(new Date(), "yyyy-MM-dd")` and
`yesterday = format(new Date(Date.now() - 86400000), "yyyy-MM-dd")` and
then branches on `prev.lastActiveDate`.  We embed the branching rule as
`streakTransition prev today`, a function of the prior record and the
single day value the two clock reads denote. -/

/-- The streak update rule of `part_002` lines 79–95, as a function of the
prior record and the value `today` used by the comparisons (with
`yesterday = today - 1`). -/
def streakTransition (prev : Streak) (today : Int) : Streak :=
  let yesterday := today - 1
  if prev.lastActiveDate = some today then prev
  else
    let newStreak :=
      if prev.lastActiveDate = some yesterday ∨ prev.lastActiveDate = none then
        prev.currentStreak + 1
      else if prev.lastActiveDate ≠ some today then 1
      else prev.currentStreak
    { currentStreak := newStreak
      longestStreak := max newStreak prev.longestStreak
      lastActiveDate := some today }

/-- `updateStreak(date)` of `part_002` lines 74–97 as actually written:
the `date` argument carried by the log is **unused**; both `today` and
`yesterday` are derived from the wall clock, modelled here as the extra
argument `clockToday`. -/
def updateStreak (prev : Streak) ( _date : Int) (clockToday : Int) : Streak :=
  streakTransition prev clockToday

/-- Folding the streak rule over a sequence of day values starting from a
given record (each `addLog` call triggers one `updateStreak`). -/
def applyStreakDays (s : Streak) (days : List Int) : Streak :=
  days.foldl streakTransition s

/-! ## Claims C1, C6, C9 -/

/-- **C1.**  The Streak Tracker transition, evaluated with `today` equal to
the date carried on the log (the situation the server boundary guarantees:
`storage.ts` line 432 only runs the update when `data.date === today`):
if `lastActiveDate` equals the log's date the record is returned
unchanged; if `lastActiveDate` is the day before the log's date or `null`,
`currentStreak` increases by 1 (so the fresh state `{0, 0, null}` moves to
streak 1); any other `lastActiveDate` two or more days earlier resets
`currentStreak` to 1 regardless of its prior value; and whenever the
record is rewritten, `longestStreak = max(old longestStreak, new
currentStreak)` and `lastActiveDate` becomes the log's date. -/
theorem streakTransition_cases (prev : Streak) (logDate : Int) :
    (prev.lastActiveDate = some logDate → streakTransition prev logDate = prev)
    ∧ (prev.lastActiveDate ≠ some logDate →
        ((prev.lastActiveDate = some (logDate - 1) ∨ prev.lastActiveDate = none →
            (streakTransition prev logDate).currentStreak = prev.currentStreak + 1)
          ∧ (∀ e : Int, prev.lastActiveDate = some e → e + 2 ≤ logDate →
              (streakTransition prev logDate).currentStreak = 1)
          ∧ (streakTransition prev logDate).longestStreak
              = max prev.longestStreak (streakTransition prev logDate).currentStreak
          ∧ (streakTransition prev logDate).lastActiveDate = some logDate)) := by
  constructor
  · intro h
    simp [streakTransition, h]
  · intro hne
    refine ⟨?_, ?_, ?_, ?_⟩
    · intro h
      simp [streakTransition, hne, h]
    · intro e he hgap
      have h1 : prev.lastActiveDate ≠ some (logDate - 1) := by
        rw [he]; intro hc; injection hc with hc; omega
      have h0 : prev.lastActiveDate ≠ none := by rw [he]; simp
      simp [streakTransition, hne, h1, h0]
    · by_cases h : prev.lastActiveDate = some (logDate - 1) ∨ prev.lastActiveDate = none
      · simp [streakTransition, hne, h, Nat.max_comm]
      · simp [streakTransition, hne, h, Nat.max_comm]
    · by_cases h : prev.lastActiveDate = some (logDate - 1) ∨ prev.lastActiveDate = none
      · simp [streakTransition, hne, h]
      · simp [streakTransition, hne, h]

/-- Witness for C1: a record last active on day 10 receiving a log for day
20 (a gap of 10 days) resets to streak 1, with `longestStreak` kept and
`lastActiveDate` moved to day 20. -/
theorem streakTransition_cases_witness :
    (streakTransition ⟨3, 5, some 10⟩ 20).currentStreak = 1
    ∧ (streakTransition ⟨3, 5, some 10⟩ 20).lastActiveDate = some 20 := by
  have h := streakTransition_cases ⟨3, 5, some 10⟩ 20
  have hne : (Streak.mk 3 5 (some 10)).lastActiveDate ≠ some 20 := by decide
  exact ⟨(h.2 hne).2.1 10 rfl (by decide), (h.2 hne).2.2.2⟩

/-- **C6 (failing input).**  The `updateStreak` of `part_002` as written is
*not* a function of the prior record and the log's date: its `date`
argument is dead and `today`/`yesterday` come from the wall clock, so the
same prior record and the same log date produce different streak records
under different clock readings (here: clock day 100 vs clock day 200,
log date 100 in both runs). -/
theorem updateStreak_depends_on_clock :
    updateStreak initialStreak 100 100 ≠ updateStreak initialStreak 100 200 := by
  decide

/-- **C9.**  `longestStreak ≥ currentStreak` holds in the default streak
state `{0, 0, null}` and after every sequence of Streak Tracker
transitions applied from it. -/
theorem longestStreak_ge_currentStreak :
    initialStreak.currentStreak ≤ initialStreak.longestStreak
    ∧ ∀ days : List Int,
        (applyStreakDays initialStreak days).currentStreak
          ≤ (applyStreakDays initialStreak days).longestStreak := by
  have step : ∀ (s : Streak) (d : Int),
      s.currentStreak ≤ s.longestStreak →
      (streakTransition s d).currentStreak ≤ (streakTransition s d).longestStreak := by
    intro s d hs
    by_cases h : s.lastActiveDate = some d
    · simpa [streakTransition, h] using hs
    · by_cases h2 : s.lastActiveDate = some (d - 1) ∨ s.lastActiveDate = none
      · simp [streakTransition, h, h2]
      · simp [streakTransition, h, h2]
  have main : ∀ (days : List Int) (s : Streak),
      s.currentStreak ≤ s.longestStreak →
      (applyStreakDays s days).currentStreak ≤ (applyStreakDays s days).longestStreak := by
    intro days
    induction days with
    | nil => intro s hs; simpa [applyStreakDays] using hs
    | cons d rest ih =>
        intro s hs
        have : (applyStreakDays s (d :: rest)) = applyStreakDays (streakTransition s d) rest := by
          simp [applyStreakDays]
        rw [this]
        exact ih _ (step s d hs)
  exact ⟨Nat.le_refl 0, fun days => main days initialStreak (Nat.le_refl 0)⟩

/-! ## Daily rollup (`part_002` getDailyStats, lines 128–161; mirrored by
the server route `GET /api/activity/daily`, `storage.ts` lines 487–527) -/

/-- One step of the JS accumulation `m[k] = (m[k] || 0) + v` on an object
used as a map, modelled as an insertion-ordered association list. -/
def bump (m : List (String × Nat)) (k : String) (v : Nat) : List (String × Nat) :=
  if m.any (fun p => p.1 == k) then
    m.map (fun p => if p.1 == k then (p.1, p.2 + v) else p)
  else m ++ [(k, v)]

/-- JS lookup `m[k] || 0` on such a map. -/
def lookupOrZero (m : List (String × Nat)) (k : String) : Nat :=
  match m.find? (fun p => p.1 == k) with
  | some p => p.2
  | none => 0

/-- One entry of `DailyStats.activities`. -/
structure ActivityWithTime where
  activityType : ActivityType
  minutes : Nat
  percentage : ℚ
deriving DecidableEq, Repr

/-- Result of the daily rollup. -/
structure DailyStats where
  date : Int
  totalMinutes : Nat
  activities : List ActivityWithTime
  productiveMinutes : Nat
  leisureMinutes : Nat
deriving DecidableEq, Repr

/-- `getDailyStats(date)` of `part_002` lines 128–161: filter the logs to
the day, total their minutes, group minutes by `activityTypeId`, join each
group to its `ActivityType` (dropping groups with no match, per the
`.filter(a => a.activityType)` after the non-null assertion), and total
the joined productive/leisure groups. -/
def getDailyStats (activities : List ActivityType) (logs : List ActivityLog)
    (date : Int) : DailyStats :=
  let dayLogs := logs.filter (fun log => log.date == date)
  let totalMinutes := (dayLogs.map (fun log => log.minutes)).sum
  let activityBreakdown := dayLogs.foldl (fun m log => bump m log.activityTypeId log.minutes) []
  let activitiesWithTime := activityBreakdown.filterMap (fun p =>
    (activities.find? (fun a => a.id == p.1)).map (fun t =>
      { activityType := t, minutes := p.2
        percentage := if totalMinutes > 0 then (p.2 : ℚ) / (totalMinutes : ℚ) * 100 else 0 }))
  let productiveMinutes :=
    ((activitiesWithTime.filter (fun a => a.activityType.category == "productive")).map
      (fun a => a.minutes)).sum
  let leisureMinutes :=
    ((activitiesWithTime.filter (fun a => a.activityType.category == "leisure")).map
      (fun a => a.minutes)).sum
  { date := date, totalMinutes := totalMinutes, activities := activitiesWithTime
    productiveMinutes := productiveMinutes, leisureMinutes := leisureMinutes }

/-! ## Claims C4, C8 -/

/-- **C4.**  A log whose `activityTypeId` matches no visible
`ActivityType` is silently dropped from the daily activities breakdown
(no entry of the result carries its id, hence it contributes to neither
`productiveMinutes` nor `leisureMinutes`, which are sums over the joined
entries), while `totalMinutes` is still the sum over *all* logs of the
day, orphans included.  `getDailyStats` is a total function, so no error
is raised for the referential gap. -/
theorem dailyStats_orphan_asymmetry (acts : List ActivityType)
    (logs : List ActivityLog) (d : Int) :
    (getDailyStats acts logs d).totalMinutes
        = ((logs.filter (fun log => log.date == d)).map (fun log => log.minutes)).sum
    ∧ (∀ l : ActivityLog, l ∈ logs → l.date = d →
        acts.find? (fun a => a.id == l.activityTypeId) = none →
        ∀ e ∈ (getDailyStats acts logs d).activities,
          e.activityType.id ≠ l.activityTypeId) := by
  refine ⟨rfl, ?_⟩
  intro l _ _ hnone e he hid
  simp only [getDailyStats] at he
  rw [List.mem_filterMap] at he
  obtain ⟨p, _, hf⟩ := he
  rw [Option.map_eq_some'] at hf
  obtain ⟨t, hfind, heq⟩ := hf
  have hpred := List.find?_some hfind
  have htid : t.id = p.1 := by simpa using hpred
  have : e.activityType = t := by rw [← heq]
  rw [this, htid] at hid
  rw [hid] at hfind
  rw [hfind] at hnone
  exact Option.noConfusion hnone

/-- Demo data for the C4/C8 witnesses: one visible type, one joinable log
and one orphaned log on day 5, and a zero-minute log on day 7. -/
def demoWork : ActivityType :=
  { id := "1", userId := none, name := "Work", icon := "Briefcase"
    color := "#3B82F6", category := "productive", isDefault := true }

def demoActs : List ActivityType := [demoWork]

def demoLogs : List ActivityLog :=
  [ { id := "l1", activityTypeId := "1", date := 5, minutes := 60 }
  , { id := "l2", activityTypeId := "99", date := 5, minutes := 30 }
  , { id := "l3", activityTypeId := "1", date := 7, minutes := 0 } ]

/-- Witness for C4: on day 5 the orphaned log (`activityTypeId = "99"`)
is excluded from every breakdown entry, while `totalMinutes = 90` still
counts its 30 minutes. -/
theorem dailyStats_orphan_asymmetry_witness :
    (getDailyStats demoActs demoLogs 5).totalMinutes = 90
    ∧ ({ activityType := demoWork, minutes := 60, percentage := (200 : ℚ) / 3
        } : ActivityWithTime).activityType.id ≠ "99" := by
  have h := dailyStats_orphan_asymmetry demoActs demoLogs 5
  refine ⟨by rw [h.1]; decide, ?_⟩
  exact h.2 { id := "l2", activityTypeId := "99", date := 5, minutes := 30 }
    (by decide) (by decide) (by decide)
    { activityType := demoWork, minutes := 60, percentage := (200 : ℚ) / 3 }
    (by
      norm_num [getDailyStats, demoActs, demoLogs, demoWork, bump]
      exact ⟨"1", 60, by decide, rfl, rfl, by norm_num⟩)

/-- **C8.**  Every entry of the daily activities breakdown has
`percentage = minutes / totalMinutes × 100` when `totalMinutes > 0` and
`percentage = 0` when `totalMinutes = 0`; in particular on a day whose
`totalMinutes` is 0 every entry's percentage is 0 (the guard makes the
division unreachable). -/
theorem dailyStats_percentage (acts : List ActivityType)
    (logs : List ActivityLog) (d : Int) :
    ∀ e ∈ (getDailyStats acts logs d).activities,
      e.percentage = (if (getDailyStats acts logs d).totalMinutes > 0
          then (e.minutes : ℚ) / ((getDailyStats acts logs d).totalMinutes : ℚ) * 100
          else 0)
      ∧ ((getDailyStats acts logs d).totalMinutes = 0 → e.percentage = 0) := by
  intro e he
  simp only [getDailyStats] at he ⊢
  rw [List.mem_filterMap] at he
  obtain ⟨p, _, hf⟩ := he
  rw [Option.map_eq_some'] at hf
  obtain ⟨t, _, heq⟩ := hf
  subst heq
  refine ⟨rfl, ?_⟩
  intro hz
  simp [hz]

/-- Witness for C8: day 7 of the demo data has one breakdown entry and
`totalMinutes = 0`, and that entry's percentage is 0. -/
theorem dailyStats_percentage_witness :
    ({ activityType := demoWork, minutes := 0, percentage := 0
      } : ActivityWithTime).percentage = 0 := by
  exact (dailyStats_percentage demoActs demoLogs 7
    { activityType := demoWork, minutes := 0, percentage := 0 } (by decide)).2 (by decide)

/-! ## Stable descending sort

JavaScript `array.sort((a, b) => b.key - a.key)` is a stable sort
(ES2019): the result is ordered by descending key and elements with equal
keys keep their original relative order.  We realise exactly that
semantics with a stable insertion sort. -/

/-- Insert `x` into `l`, skipping the elements whose key is strictly
larger; on ties `x` ends up before the tied elements of `l` (which all
came after `x` in the original list), giving stability. -/
def insertDescBy {α : Type} (key : α → Nat) (x : α) : List α → List α
  | [] => [x]
  | y :: ys => if key y > key x then y :: insertDescBy key x ys else x :: y :: ys

/-- Stable sort by descending key. -/
def sortDescBy {α : Type} (key : α → Nat) : List α → List α
  | [] => []
  | x :: xs => insertDescBy key x (sortDescBy key xs)

theorem mem_insertDescBy {α : Type} (key : α → Nat) (x : α) (l : List α) (a : α) :
    a ∈ insertDescBy key x l ↔ a = x ∨ a ∈ l := by
  induction l with
  | nil => simp [insertDescBy]
  | cons y ys ih =>
      by_cases h : key y > key x
      · simp only [insertDescBy, if_pos h, List.mem_cons, ih]
        tauto
      · simp only [insertDescBy, if_neg h, List.mem_cons]

theorem mem_sortDescBy {α : Type} (key : α → Nat) (l : List α) (a : α) :
    a ∈ sortDescBy key l ↔ a ∈ l := by
  induction l with
  | nil => simp [sortDescBy]
  | cons x xs ih => simp [sortDescBy, mem_insertDescBy, ih]

theorem pairwise_insertDescBy {α : Type} (key : α → Nat) (x : α) (l : List α)
    (h : l.Pairwise (fun a b => key b ≤ key a)) :
    (insertDescBy key x l).Pairwise (fun a b => key b ≤ key a) := by
  induction l with
  | nil => simp [insertDescBy]
  | cons y ys ih =>
      rcases List.pairwise_cons.mp h with ⟨hy, hys⟩
      by_cases hxy : key y > key x
      · rw [insertDescBy, if_pos hxy]
        refine List.pairwise_cons.mpr ⟨?_, ih hys⟩
        intro z hz
        rcases (mem_insertDescBy key x ys z).mp hz with hzx | hzys
        · subst hzx; exact Nat.le_of_lt hxy
        · exact hy z hzys
      · rw [insertDescBy, if_neg hxy]
        refine List.pairwise_cons.mpr ⟨?_, h⟩
        intro z hz
        rcases List.mem_cons.mp hz with hzy | hzys
        · subst hzy; exact Nat.le_of_not_lt hxy
        · exact Nat.le_trans (hy z hzys) (Nat.le_of_not_lt hxy)

theorem sortDescBy_sorted {α : Type} (key : α → Nat) (l : List α) :
    (sortDescBy key l).Pairwise (fun a b => key b ≤ key a) := by
  induction l with
  | nil => simp [sortDescBy]
  | cons x xs ih => exact pairwise_insertDescBy key x _ ih

/-! ## Weekly rollup (`part_002` getWeeklyStats, lines 163–211, and
generateWeeklyInsights, lines 289–320) -/

/-- One entry of `WeeklyStats.activityBreakdown`. -/
structure WeeklyActivity where
  activityType : ActivityType
  minutes : Nat
  previousWeekMinutes : Nat
  changePercentage : ℚ
deriving DecidableEq, Repr

/-- Result of the weekly rollup. -/
structure WeeklyStats where
  startDate : Int
  endDate : Int
  totalMinutes : Nat
  dailyBreakdown : List DailyStats
  activityBreakdown : List WeeklyActivity
  insights : List String
deriving DecidableEq, Repr

/-- `generateWeeklyInsights` of `part_002` lines 289–320.  `Math.round`
rounds half away from zero upward, exactly Mathlib `round` on `ℚ`. -/
def generateWeeklyInsights (activityBreakdown : List WeeklyActivity)
    (totalMinutes : Nat) : List String :=
  let insights := activityBreakdown.foldl (fun acc a =>
    if a.changePercentage > 20 then
      let r := round a.changePercentage
      let n := a.activityType.name
      acc ++ [s!"You spent {r}% more time on {n} compared to last week."]
    else if a.changePercentage < -20 then
      let r := (round a.changePercentage : ℤ).natAbs
      let n := a.activityType.name
      acc ++ [s!"You reduced {n} by {r}% from last week."]
    else acc) []
  let leisureTotal :=
    ((activityBreakdown.filter (fun a => a.activityType.category == "leisure")).map
      (fun a => a.minutes)).sum
  let insights := if (leisureTotal : ℚ) > (totalMinutes : ℚ) * 0.4 then
      insights ++
        ["You\x27re spending a lot of time on leisure activities. Consider balancing with productive tasks."]
    else insights
  let healthTotal :=
    ((activityBreakdown.filter (fun a => a.activityType.category == "health")).map
      (fun a => a.minutes)).sum
  let insights := if healthTotal < 180 then
      insights ++ ["Try to add more health-focused activities like exercise or meditation."]
    else insights
  let insights := if insights = [] then ["Great job maintaining a balanced week!"] else insights
  insights.take 3

/-- `getWeeklyStats(date)` of `part_002` lines 163–211: Monday-start week
window around the anchor date, per-day daily rollups, one pass over the
logs accumulating current-week and previous-week minutes per activity
type, join to the visible types, stable descending sort by current-week
minutes, then templated insights. -/
def getWeeklyStats (activities : List ActivityType) (logs : List ActivityLog)
    (date : Int) : WeeklyStats :=
  let weekStart := startOfWeekMon date
  let weekEnd := weekStart + 6
  let prevWeekStart := weekStart - 7
  let prevWeekEnd := weekEnd - 7
  let daysInWeek := (List.range 7).map (fun i : Nat => weekStart + (i : Int))
  let dailyBreakdown := daysInWeek.map (fun day => getDailyStats activities logs day)
  let totalMinutes := (dailyBreakdown.map (fun day => day.totalMinutes)).sum
  let weekMaps := logs.foldl
    (fun (mp : List (String × Nat) × List (String × Nat)) log =>
      if weekStart ≤ log.date ∧ log.date ≤ weekEnd then
        (bump mp.1 log.activityTypeId log.minutes, mp.2)
      else if prevWeekStart ≤ log.date ∧ log.date ≤ prevWeekEnd then
        (mp.1, bump mp.2 log.activityTypeId log.minutes)
      else mp) ([], [])
  let activityBreakdown := weekMaps.1.filterMap (fun p =>
    (activities.find? (fun a => a.id == p.1)).map (fun t =>
      let previousWeekMinutes := lookupOrZero weekMaps.2 p.1
      let changePercentage : ℚ :=
        if previousWeekMinutes > 0 then
          ((p.2 : ℚ) - (previousWeekMinutes : ℚ)) / (previousWeekMinutes : ℚ) * 100
        else if p.2 > 0 then 100 else 0
      { activityType := t, minutes := p.2, previousWeekMinutes := previousWeekMinutes
        changePercentage := changePercentage }))
  let activityBreakdown := sortDescBy (fun a => a.minutes) activityBreakdown
  let insights := generateWeeklyInsights activityBreakdown totalMinutes
  { startDate := weekStart, endDate := weekEnd, totalMinutes := totalMinutes
    dailyBreakdown := dailyBreakdown, activityBreakdown := activityBreakdown
    insights := insights }

/-! ## Claims C2, C5 -/

/-- **C2.**  The weekly rollup uses the Monday-start 7-day window
containing the anchor date (`getDay` of the window start is 1 = Monday,
and the anchor lies between the start and start + 6 = end); its
`dailyBreakdown` is the daily rollup of each of the 7 window days in date
order; and its `totalMinutes` is the sum of the 7 `dailyBreakdown`
entries' `totalMinutes`. -/
theorem weeklyStats_window (acts : List ActivityType) (logs : List ActivityLog)
    (anchor : Int) :
    getDay (getWeeklyStats acts logs anchor).startDate = 1
    ∧ (getWeeklyStats acts logs anchor).startDate ≤ anchor
    ∧ anchor ≤ (getWeeklyStats acts logs anchor).startDate + 6
    ∧ (getWeeklyStats acts logs anchor).endDate
        = (getWeeklyStats acts logs anchor).startDate + 6
    ∧ (getWeeklyStats acts logs anchor).dailyBreakdown
        = (List.range 7).map (fun i : Nat =>
            getDailyStats acts logs ((getWeeklyStats acts logs anchor).startDate + (i : Int)))
    ∧ (getWeeklyStats acts logs anchor).totalMinutes
        = ((getWeeklyStats acts logs anchor).dailyBreakdown.map
            (fun day => day.totalMinutes)).sum := by
  refine ⟨?_, ?_, ?_, rfl, ?_, rfl⟩
  · show getDay (startOfWeekMon anchor) = 1
    simp only [getDay, startOfWeekMon]
    omega
  · show startOfWeekMon anchor ≤ anchor
    simp only [startOfWeekMon, getDay]
    omega
  · show anchor ≤ startOfWeekMon anchor + 6
    simp only [startOfWeekMon, getDay]
    omega
  · show ((List.range 7).map fun i : Nat => startOfWeekMon anchor + (i : Int)).map
        (fun day => getDailyStats acts logs day)
      = (List.range 7).map (fun i : Nat => getDailyStats acts logs (startOfWeekMon anchor + (i : Int)))
    rw [List.map_map]
    rfl

/-- **C5.**  Every entry of the weekly activity breakdown satisfies the
change-percentage rule — `(current − previous) / previous × 100` when the
previous-week minutes are positive, `100` when they are zero and the
current-week minutes are positive, `0` when both are zero — and the
breakdown list is sorted descending by current-week minutes. -/
theorem weeklyStats_changePercentage (acts : List ActivityType)
    (logs : List ActivityLog) (anchor : Int) :
    (∀ e ∈ (getWeeklyStats acts logs anchor).activityBreakdown,
      (e.previousWeekMinutes > 0 →
        e.changePercentage
          = ((e.minutes : ℚ) - (e.previousWeekMinutes : ℚ))
              / (e.previousWeekMinutes : ℚ) * 100)
      ∧ (e.previousWeekMinutes = 0 → e.minutes > 0 → e.changePercentage = 100)
      ∧ (e.previousWeekMinutes = 0 → e.minutes = 0 → e.changePercentage = 0))
    ∧ (getWeeklyStats acts logs anchor).activityBreakdown.Pairwise
        (fun a b => b.minutes ≤ a.minutes) := by
  constructor
  · intro e he
    simp only [getWeeklyStats] at he
    rw [mem_sortDescBy] at he
    rw [List.mem_filterMap] at he
    obtain ⟨p, _, hf⟩ := he
    rw [Option.map_eq_some'] at hf
    obtain ⟨t, _, heq⟩ := hf
    subst heq
    refine ⟨?_, ?_, ?_⟩
    · intro h
      simp only at h ⊢
      rw [if_pos h]
    · intro h0 hpos
      simp only at h0 ⊢
      rw [if_neg (by omega), if_pos hpos]
    · intro h0 hz
      simp only at h0 hz ⊢
      rw [if_neg (by omega), if_neg (by omega)]
  · simp only [getWeeklyStats]
    exact sortDescBy_sorted _ _

/-- Demo data for the C5 witness: one 30-minute Work log on day 4 (a
Monday: `getDay 4 = 1`), nothing in the previous week. -/
def demoWeekLogs : List ActivityLog :=
  [ { id := "lw", activityTypeId := "1", date := 4, minutes := 30 } ]

/-- Witness for C5 (the spec's example): an activity with 0 minutes last
week and 30 minutes this week gets `changePercentage = 100`. -/
theorem weeklyStats_changePercentage_witness :
    ({ activityType := demoWork, minutes := 30, previousWeekMinutes := 0
       changePercentage := 100 } : WeeklyActivity).changePercentage = 100 :=
  (((weeklyStats_changePercentage demoActs demoWeekLogs 4).1 _
    (by decide)).2.1 (by decide) (by decide))

/-! ## Monthly rollup (`part_002` getMonthlyStats, lines 213–259, and
generateMonthlySuggestions, lines 322–357) -/

/-- One cell of the monthly heatmap. -/
structure DayEntry where
  date : Int
  minutes : Nat
deriving DecidableEq, Repr

/-- One entry of `MonthlyStats.topActivities`. -/
structure TopActivity where
  activityType : ActivityType
  minutes : Nat
deriving DecidableEq, Repr

/-- Result of the monthly rollup.  The source's `month` field is the
`"yyyy-MM"` string; we carry the month's first day instead, and its
`mostProductiveDay`/`leastProductiveDay` use `""` as the no-data
sentinel (`sortedByMinutes[0]?.date || ""`), modelled as `none`. -/
structure MonthlyStats where
  monthStart : Int
  totalMinutes : Nat
  dailyHeatmap : List DayEntry
  mostProductiveDay : Option Int
  leastProductiveDay : Option Int
  topActivities : List TopActivity
  suggestions : List String
deriving DecidableEq, Repr

/-- `generateMonthlySuggestions` of `part_002` lines 322–357: four
threshold rules pushed in order, a generic fallback when none fired, and
a final `slice(0, 4)`. -/
def generateMonthlySuggestions (topActivities : List TopActivity)
    (totalMinutes : Nat) : List String :=
  let suggestions : List String := []
  let leisureActivity := topActivities.find? (fun a =>
    a.activityType.name == "Social Media" || a.activityType.name == "Gaming")
  let suggestions := match leisureActivity with
    | some la =>
        if (la.minutes : ℚ) > (totalMinutes : ℚ) * 0.25 then
          let n := la.activityType.name
          suggestions ++ [s!"You spent too much time on {n}. Try limiting it to improve productivity."]
        else suggestions
    | none => suggestions
  let sleepActivity := topActivities.find? (fun a => a.activityType.name == "Sleep")
  let avgSleepPerDay : ℚ := match sleepActivity with
    | some s => (s.minutes : ℚ) / 30
    | none => 0
  let suggestions := if avgSleepPerDay < 420 then
      suggestions ++ ["Try sleeping earlier. Aim for 7-8 hours for better focus."]
    else suggestions
  let exerciseActivity := topActivities.find? (fun a => a.activityType.name == "Exercise")
  let suggestions := if (match exerciseActivity with
      | none => true
      | some e => decide (e.minutes < 600)) then
      suggestions ++ ["Add 30 minutes of exercise daily for better balance and energy."]
    else suggestions
  let productiveTotal :=
    ((topActivities.filter (fun a => a.activityType.category == "productive")).map
      (fun a => a.minutes)).sum
  let suggestions := if (productiveTotal : ℚ) > (totalMinutes : ℚ) * 0.5 then
      suggestions ++ ["Great work on staying productive! Keep up the momentum."]
    else suggestions
  let suggestions := if suggestions = [] then
      ["You\x27re doing great! Keep maintaining your healthy routine."]
    else suggestions
  suggestions.take 4

/-- `getMonthlyStats(date)` of `part_002` lines 213–259, parametrised by
the month's first day and its number of days (`startOfMonth` /
`endOfMonth` / `eachDayOfInterval` of the source); a log lies in the
month (`log.date.startsWith(month)`) iff
`monthStart ≤ log.date < monthStart + monthLen`. -/
def getMonthlyStats (activities : List ActivityType) (logs : List ActivityLog)
    (monthStart : Int) (monthLen : Nat) : MonthlyStats :=
  let daysInMonth := (List.range monthLen).map (fun i : Nat => monthStart + (i : Int))
  let dailyHeatmap := daysInMonth.map (fun d =>
    { date := d
      minutes := ((logs.filter (fun log => log.date == d)).map
        (fun log => log.minutes)).sum : DayEntry })
  let totalMinutes := (dailyHeatmap.map (fun day => day.minutes)).sum
  let sortedByMinutes := sortDescBy (fun d => d.minutes)
    (dailyHeatmap.filter (fun d => d.minutes > 0))
  let mostProductiveDay := sortedByMinutes.head?.map (fun d => d.date)
  let leastProductiveDay := sortedByMinutes.getLast?.map (fun d => d.date)
  let activityTotals := (logs.filter (fun log =>
      monthStart ≤ log.date ∧ log.date < monthStart + (monthLen : Int))).foldl
    (fun m log => bump m log.activityTypeId log.minutes) []
  let topActivities := (sortDescBy (fun a => a.minutes)
    (activityTotals.filterMap (fun p =>
      (activities.find? (fun a => a.id == p.1)).map (fun t =>
        { activityType := t, minutes := p.2 : TopActivity })))).take 5
  let suggestions := generateMonthlySuggestions topActivities totalMinutes
  { monthStart := monthStart, totalMinutes := totalMinutes
    dailyHeatmap := dailyHeatmap, mostProductiveDay := mostProductiveDay
    leastProductiveDay := leastProductiveDay, topActivities := topActivities
    suggestions := suggestions }

/-! ## Head and last of the stable descending sort

`sortedByMinutes[0]` is the *first* element of the input attaining the
maximal key (stability: earlier elements win ties), and
`sortedByMinutes[length - 1]` is the *last* element attaining the minimal
key (later elements win ties).  `headMax`/`lastMin` compute these
directly; we prove they agree with head/last of `sortDescBy`. -/

/-- First element attaining the maximal key (left-to-right scan, the
earlier element wins ties). -/
def headMax {α : Type} (key : α → Nat) : List α → Option α
  | [] => none
  | x :: xs => match headMax key xs with
    | none => some x
    | some m => if key m > key x then some m else some x

/-- Last element attaining the minimal key (the later element wins ties). -/
def lastMin {α : Type} (key : α → Nat) : List α → Option α
  | [] => none
  | x :: xs => match lastMin key xs with
    | none => some x
    | some m => if key m > key x then some x else some m

theorem headMax_eq_none {α : Type} (key : α → Nat) (l : List α) :
    headMax key l = none ↔ l = [] := by
  cases l with
  | nil => simp [headMax]
  | cons x xs =>
      cases h : headMax key xs <;> simp [headMax, h]
      split <;> simp

theorem lastMin_eq_none {α : Type} (key : α → Nat) (l : List α) :
    lastMin key l = none ↔ l = [] := by
  cases l with
  | nil => simp [lastMin]
  | cons x xs =>
      cases h : lastMin key xs <;> simp [lastMin, h]
      split <;> simp

theorem insertDescBy_ne_nil {α : Type} (key : α → Nat) (x : α) (l : List α) :
    insertDescBy key x l ≠ [] := by
  cases l with
  | nil => simp [insertDescBy]
  | cons y ys =>
      rw [insertDescBy]
      split <;> simp

theorem head?_insertDescBy {α : Type} (key : α → Nat) (x : α) (l : List α) :
    (insertDescBy key x l).head? = some (match l.head? with
      | none => x
      | some y => if key y > key x then y else x) := by
  cases l with
  | nil => simp [insertDescBy]
  | cons y ys =>
      rw [insertDescBy]
      by_cases h : key y > key x
      · simp [h]
      · simp [h]

theorem head?_sortDescBy {α : Type} (key : α → Nat) (l : List α) :
    (sortDescBy key l).head? = headMax key l := by
  induction l with
  | nil => simp [sortDescBy, headMax]
  | cons x xs ih =>
      rw [sortDescBy, head?_insertDescBy, ih]
      cases h : headMax key xs with
      | none => simp [headMax, h]
      | some m =>
          rw [headMax, h]
          by_cases hgt : key m > key x <;> simp [hgt]

theorem getLast?_mem_list {α : Type} : ∀ (l : List α) (a : α), l.getLast? = some a → a ∈ l := by
  intro l
  induction l with
  | nil => intro a h; simp at h
  | cons x xs ih =>
      intro a h
      cases xs with
      | nil =>
          simp at h
          rw [h]
          exact List.mem_singleton_self a
      | cons y ys =>
          rw [List.getLast?_cons_cons] at h
          exact List.mem_cons_of_mem x (ih a h)

theorem getLast?_insertDescBy {α : Type} (key : α → Nat) (x : α) (l : List α)
    (hl : l.Pairwise (fun a b => key b ≤ key a)) :
    (insertDescBy key x l).getLast? = some (match l.getLast? with
      | none => x
      | some y => if key y > key x then x else y) := by
  induction l with
  | nil => simp [insertDescBy]
  | cons y ys ih =>
      rcases List.pairwise_cons.mp hl with ⟨hy, hys⟩
      rw [insertDescBy]
      by_cases h : key y > key x
      · rw [if_pos h]
        cases hi : insertDescBy key x ys with
        | nil => exact absurd hi (insertDescBy_ne_nil key x ys)
        | cons z zs =>
            rw [List.getLast?_cons_cons, ← hi, ih hys]
            cases ys with
            | nil => simp [h]
            | cons w ws => rw [List.getLast?_cons_cons]
      · rw [if_neg h]
        rw [List.getLast?_cons_cons]
        cases hlast : (y :: ys).getLast? with
        | none => simp at hlast
        | some w =>
            have hw : w ∈ y :: ys := getLast?_mem_list _ w hlast
            have hwx : ¬ key w > key x := by
              have hwy : key w ≤ key y := by
                rcases List.mem_cons.mp hw with h1 | h1
                · rw [h1]
                · exact hy w h1
              omega
            simp [hwx]

theorem getLast?_sortDescBy {α : Type} (key : α → Nat) (l : List α) :
    (sortDescBy key l).getLast? = lastMin key l := by
  induction l with
  | nil => simp [sortDescBy, lastMin]
  | cons x xs ih =>
      rw [sortDescBy, getLast?_insertDescBy key x _ (sortDescBy_sorted key xs), ih]
      cases h : lastMin key xs with
      | none => simp [lastMin, h]
      | some m =>
          by_cases hgt : key m > key x
          · simp [lastMin, h, hgt]
          · simp [lastMin, h, hgt]

theorem headMax_first_max : ∀ (l : List DayEntry),
    l.Pairwise (fun a b => a.date < b.date) →
    ∀ m, headMax (fun d => d.minutes) l = some m →
    m ∈ l ∧ (∀ x ∈ l, x.minutes ≤ m.minutes)
      ∧ (∀ x ∈ l, x.minutes = m.minutes → m.date ≤ x.date) := by
  intro l
  induction l with
  | nil => intro _ m h; simp [headMax] at h
  | cons x xs ih =>
      intro hl m h
      rcases List.pairwise_cons.mp hl with ⟨hx, hxs⟩
      cases hk : headMax (fun d => d.minutes) xs with
      | none =>
          have hnil : xs = [] := (headMax_eq_none _ _).mp hk
          subst hnil
          simp [headMax] at h
          subst h
          exact ⟨by simp, by simp, by simp⟩
      | some k =>
          simp only [headMax, hk] at h
          obtain ⟨hkmem, hkbnd, hkties⟩ := ih hxs k hk
          by_cases hgt : k.minutes > x.minutes
          · rw [if_pos hgt] at h
            injection h with h
            subst h
            refine ⟨List.mem_cons_of_mem x hkmem, ?_, ?_⟩
            · intro z hz
              rcases List.mem_cons.mp hz with hzx | hzs
              · subst hzx; exact Nat.le_of_lt hgt
              · exact hkbnd z hzs
            · intro z hz hzeq
              rcases List.mem_cons.mp hz with hzx | hzs
              · subst hzx; omega
              · exact hkties z hzs hzeq
          · rw [if_neg hgt] at h
            injection h with h
            subst h
            refine ⟨List.mem_cons_self _ xs, ?_, ?_⟩
            · intro z hz
              rcases List.mem_cons.mp hz with hzx | hzs
              · subst hzx; exact Nat.le_refl _
              · have := hkbnd z hzs
                omega
            · intro z hz _
              rcases List.mem_cons.mp hz with hzx | hzs
              · subst hzx; exact Int.le_refl _
              · exact Int.le_of_lt (hx z hzs)

theorem lastMin_last_min : ∀ (l : List DayEntry),
    l.Pairwise (fun a b => a.date < b.date) →
    ∀ m, lastMin (fun d => d.minutes) l = some m →
    m ∈ l ∧ (∀ x ∈ l, m.minutes ≤ x.minutes)
      ∧ (∀ x ∈ l, x.minutes = m.minutes → x.date ≤ m.date) := by
  intro l
  induction l with
  | nil => intro _ m h; simp [lastMin] at h
  | cons x xs ih =>
      intro hl m h
      rcases List.pairwise_cons.mp hl with ⟨hx, hxs⟩
      cases hk : lastMin (fun d => d.minutes) xs with
      | none =>
          have hnil : xs = [] := (lastMin_eq_none _ _).mp hk
          subst hnil
          simp [lastMin] at h
          subst h
          exact ⟨by simp, by simp, by simp⟩
      | some k =>
          simp only [lastMin, hk] at h
          obtain ⟨hkmem, hkbnd, hkties⟩ := ih hxs k hk
          by_cases hgt : k.minutes > x.minutes
          · rw [if_pos hgt] at h
            injection h with h
            subst h
            refine ⟨List.mem_cons_self _ xs, ?_, ?_⟩
            · intro z hz
              rcases List.mem_cons.mp hz with hzx | hzs
              · subst hzx; exact Nat.le_refl _
              · have := hkbnd z hzs
                omega
            · intro z hz hzeq
              rcases List.mem_cons.mp hz with hzx | hzs
              · subst hzx; exact Int.le_refl _
              · have := hkbnd z hzs
                omega
          · rw [if_neg hgt] at h
            injection h with h
            subst h
            refine ⟨List.mem_cons_of_mem x hkmem, ?_, ?_⟩
            · intro z hz
              rcases List.mem_cons.mp hz with hzx | hzs
              · subst hzx; omega
              · exact hkbnd z hzs
            · intro z hz hzeq
              rcases List.mem_cons.mp hz with hzx | hzs
              · subst hzx; exact Int.le_of_lt (hx _ hkmem)
              · exact hkties z hzs hzeq

/-! ## Claim C3 -/

/-- **C3.**  The monthly heatmap has one `{date, minutes}` entry per
calendar day of the month, zero-minute days included, in ascending date
order; `mostProductiveDay` is the earliest date attaining the maximum
minutes among days with positive minutes, and `leastProductiveDay` is the
latest date attaining the minimum positive minutes (head and last of the
stable descending-by-minutes sort of the positive-minute heatmap
entries); both are defined whenever some day has positive minutes. -/
theorem monthlyStats_heatmap_extremes (acts : List ActivityType)
    (logs : List ActivityLog) (monthStart : Int) (monthLen : Nat) :
    (getMonthlyStats acts logs monthStart monthLen).dailyHeatmap
        = (List.range monthLen).map (fun i : Nat =>
            ({ date := monthStart + (i : Int)
               minutes := ((logs.filter (fun log => log.date == monthStart + (i : Int))).map
                 (fun log => log.minutes)).sum } : DayEntry))
    ∧ (getMonthlyStats acts logs monthStart monthLen).dailyHeatmap.Pairwise
        (fun a b => a.date < b.date)
    ∧ (∀ m, (getMonthlyStats acts logs monthStart monthLen).mostProductiveDay = some m →
        ∃ e ∈ (getMonthlyStats acts logs monthStart monthLen).dailyHeatmap,
          e.date = m ∧ 0 < e.minutes
          ∧ (∀ f ∈ (getMonthlyStats acts logs monthStart monthLen).dailyHeatmap,
              f.minutes ≤ e.minutes)
          ∧ (∀ f ∈ (getMonthlyStats acts logs monthStart monthLen).dailyHeatmap,
              0 < f.minutes → f.minutes = e.minutes → e.date ≤ f.date))
    ∧ (∀ m, (getMonthlyStats acts logs monthStart monthLen).leastProductiveDay = some m →
        ∃ e ∈ (getMonthlyStats acts logs monthStart monthLen).dailyHeatmap,
          e.date = m ∧ 0 < e.minutes
          ∧ (∀ f ∈ (getMonthlyStats acts logs monthStart monthLen).dailyHeatmap,
              0 < f.minutes → e.minutes ≤ f.minutes)
          ∧ (∀ f ∈ (getMonthlyStats acts logs monthStart monthLen).dailyHeatmap,
              0 < f.minutes → f.minutes = e.minutes → f.date ≤ e.date))
    ∧ ((∃ e ∈ (getMonthlyStats acts logs monthStart monthLen).dailyHeatmap, 0 < e.minutes) →
        (getMonthlyStats acts logs monthStart monthLen).mostProductiveDay.isSome
        ∧ (getMonthlyStats acts logs monthStart monthLen).leastProductiveDay.isSome) := by
  have hheat : (getMonthlyStats acts logs monthStart monthLen).dailyHeatmap
      = (List.range monthLen).map (fun i : Nat =>
          ({ date := monthStart + (i : Int)
             minutes := ((logs.filter (fun log => log.date == monthStart + (i : Int))).map
               (fun log => log.minutes)).sum } : DayEntry)) := by
    show ((List.range monthLen).map fun i : Nat => monthStart + (i : Int)).map _ = _
    rw [List.map_map]
    rfl
  have hpair : (getMonthlyStats acts logs monthStart monthLen).dailyHeatmap.Pairwise
      (fun a b => a.date < b.date) := by
    rw [hheat, List.pairwise_map]
    refine List.Pairwise.imp ?_ (List.pairwise_lt_range monthLen)
    intro a b hab
    show monthStart + (a : Int) < monthStart + (b : Int)
    omega
  have hmost : (getMonthlyStats acts logs monthStart monthLen).mostProductiveDay
      = (sortDescBy (fun d => d.minutes)
          ((getMonthlyStats acts logs monthStart monthLen).dailyHeatmap.filter
            (fun d => d.minutes > 0))).head?.map (fun d => d.date) := rfl
  have hleast : (getMonthlyStats acts logs monthStart monthLen).leastProductiveDay
      = (sortDescBy (fun d => d.minutes)
          ((getMonthlyStats acts logs monthStart monthLen).dailyHeatmap.filter
            (fun d => d.minutes > 0))).getLast?.map (fun d => d.date) := rfl
  have hpf : ((getMonthlyStats acts logs monthStart monthLen).dailyHeatmap.filter
      (fun d => d.minutes > 0)).Pairwise (fun a b => a.date < b.date) :=
    hpair.sublist (List.filter_sublist _)
  refine ⟨hheat, hpair, ?_, ?_, ?_⟩
  · intro m hm
    rw [hmost, Option.map_eq_some'] at hm
    obtain ⟨e, hhead, hdate⟩ := hm
    rw [head?_sortDescBy] at hhead
    obtain ⟨hmem, hbnd, hties⟩ := headMax_first_max _ hpf e hhead
    rw [List.mem_filter] at hmem
    obtain ⟨hmemH, hposb⟩ := hmem
    have hpos : 0 < e.minutes := by simpa using hposb
    refine ⟨e, hmemH, hdate, hpos, ?_, ?_⟩
    · intro f hf
      by_cases hfp : 0 < f.minutes
      · exact hbnd f (List.mem_filter.mpr ⟨hf, by simpa using hfp⟩)
      · omega
    · intro f hf hfp hfe
      exact hties f (List.mem_filter.mpr ⟨hf, by simpa using hfp⟩) hfe
  · intro m hm
    rw [hleast, Option.map_eq_some'] at hm
    obtain ⟨e, hlast, hdate⟩ := hm
    rw [getLast?_sortDescBy] at hlast
    obtain ⟨hmem, hbnd, hties⟩ := lastMin_last_min _ hpf e hlast
    rw [List.mem_filter] at hmem
    obtain ⟨hmemH, hposb⟩ := hmem
    have hpos : 0 < e.minutes := by simpa using hposb
    refine ⟨e, hmemH, hdate, hpos, ?_, ?_⟩
    · intro f hf hfp
      exact hbnd f (List.mem_filter.mpr ⟨hf, by simpa using hfp⟩)
    · intro f hf hfp hfe
      exact hties f (List.mem_filter.mpr ⟨hf, by simpa using hfp⟩) hfe
  · rintro ⟨e, he, hepos⟩
    have hef : e ∈ (getMonthlyStats acts logs monthStart monthLen).dailyHeatmap.filter
        (fun d => d.minutes > 0) := List.mem_filter.mpr ⟨he, by simpa using hepos⟩
    have hne : (getMonthlyStats acts logs monthStart monthLen).dailyHeatmap.filter
        (fun d => d.minutes > 0) ≠ [] := List.ne_nil_of_mem hef
    constructor
    · rw [hmost, head?_sortDescBy]
      cases hh : headMax (fun d => d.minutes)
          ((getMonthlyStats acts logs monthStart monthLen).dailyHeatmap.filter
            (fun d => d.minutes > 0)) with
      | none => exact absurd ((headMax_eq_none _ _).mp hh) hne
      | some ee => simp [hh]
    · rw [hleast, getLast?_sortDescBy]
      cases hh : lastMin (fun d => d.minutes)
          ((getMonthlyStats acts logs monthStart monthLen).dailyHeatmap.filter
            (fun d => d.minutes > 0)) with
      | none => exact absurd ((lastMin_eq_none _ _).mp hh) hne
      | some ee => simp [hh]

/-- Demo data for the C3 witness (the spec's example): a 3-day month with
minutes `[0, 10, 10]`. -/
def demoMonthLogs : List ActivityLog :=
  [ { id := "m1", activityTypeId := "1", date := 1, minutes := 10 }
  , { id := "m2", activityTypeId := "1", date := 2, minutes := 10 } ]

/-- Witness for C3: in the 3-day month with minutes `[0, 10, 10]`,
`mostProductiveDay` is the earlier tied day (day 1) and
`leastProductiveDay` is the later tied day (day 2), the 0-minute day
being excluded. -/
theorem monthlyStats_heatmap_extremes_witness :
    (∃ e ∈ (getMonthlyStats demoActs demoMonthLogs 0 3).dailyHeatmap,
      e.date = 1 ∧ 0 < e.minutes
      ∧ (∀ f ∈ (getMonthlyStats demoActs demoMonthLogs 0 3).dailyHeatmap,
          f.minutes ≤ e.minutes)
      ∧ (∀ f ∈ (getMonthlyStats demoActs demoMonthLogs 0 3).dailyHeatmap,
          0 < f.minutes → f.minutes = e.minutes → e.date ≤ f.date))
    ∧ (∃ e ∈ (getMonthlyStats demoActs demoMonthLogs 0 3).dailyHeatmap,
      e.date = 2 ∧ 0 < e.minutes
      ∧ (∀ f ∈ (getMonthlyStats demoActs demoMonthLogs 0 3).dailyHeatmap,
          0 < f.minutes → e.minutes ≤ f.minutes)
      ∧ (∀ f ∈ (getMonthlyStats demoActs demoMonthLogs 0 3).dailyHeatmap,
          0 < f.minutes → f.minutes = e.minutes → f.date ≤ e.date)) :=
  ⟨(monthlyStats_heatmap_extremes demoActs demoMonthLogs 0 3).2.2.1 1 (by decide),
   (monthlyStats_heatmap_extremes demoActs demoMonthLogs 0 3).2.2.2.1 2 (by decide)⟩

/-! ## Claim C7 -/

/-- Rule 1 of the claim, as a standalone list: a "Social Media" or
"Gaming" activity (the top such entry) exceeding 25% of the monthly total
yields a limiting suggestion. -/
def monthlySuggestionRule1 (tops : List TopActivity) (total : Nat) : List String :=
  match tops.find? (fun a =>
      a.activityType.name == "Social Media" || a.activityType.name == "Gaming") with
  | some la =>
      if (la.minutes : ℚ) > (total : ℚ) * 0.25 then
        let n := la.activityType.name
        [s!"You spent too much time on {n}. Try limiting it to improve productivity."]
      else []
  | none => []

/-- Rule 2 of the claim: average daily sleep minutes (the Sleep entry's
monthly total divided by 30, or 0 when absent) below 420 yields an
earlier-sleep suggestion. -/
def monthlySuggestionRule2 (tops : List TopActivity) : List String :=
  let sleepActivity := tops.find? (fun a => a.activityType.name == "Sleep")
  let avgSleepPerDay : ℚ := match sleepActivity with
    | some s => (s.minutes : ℚ) / 30
    | none => 0
  if avgSleepPerDay < 420 then
    ["Try sleeping earlier. Aim for 7-8 hours for better focus."]
  else []

/-- Rule 3 of the claim: no "Exercise" activity present, or its monthly
total below 600 minutes, yields an add-exercise suggestion. -/
def monthlySuggestionRule3 (tops : List TopActivity) : List String :=
  if (match tops.find? (fun a => a.activityType.name == "Exercise") with
      | none => true
      | some e => decide (e.minutes < 600)) then
    ["Add 30 minutes of exercise daily for better balance and energy."]
  else []

/-- Rule 4 of the claim: productive-category total exceeding 50% of the
monthly total yields a positive-reinforcement sentence. -/
def monthlySuggestionRule4 (tops : List TopActivity) (total : Nat) : List String :=
  if (((tops.filter (fun a => a.activityType.category == "productive")).map
      (fun a => a.minutes)).sum : ℚ) > (total : ℚ) * 0.5 then
    ["Great work on staying productive! Keep up the momentum."]
  else []

/-- The claim's description of monthly suggestion generation: the four
rules evaluated and appended in fixed order (not mutually exclusive), a
generic positive sentence only if none of them fired, capped at 4. -/
def monthlySuggestionsSpec (tops : List TopActivity) (total : Nat) : List String :=
  let fired := monthlySuggestionRule1 tops total ++ monthlySuggestionRule2 tops
    ++ monthlySuggestionRule3 tops ++ monthlySuggestionRule4 tops total
  (if fired = [] then ["You\x27re doing great! Keep maintaining your healthy routine."]
   else fired).take 4

set_option maxHeartbeats 2000000 in
/-- **C7.**  `generateMonthlySuggestions` coincides, on every input, with
the claim's rule list: the five rules are evaluated in the fixed order,
each message whose condition holds is appended (the rules are not
mutually exclusive), the generic positive sentence is emitted only when
none of the first four fired, and the output is capped at 4 entries. -/
theorem generateMonthlySuggestions_spec (tops : List TopActivity) (total : Nat) :
    generateMonthlySuggestions tops total = monthlySuggestionsSpec tops total
    ∧ (generateMonthlySuggestions tops total).length ≤ 4 := by
  constructor
  · simp only [generateMonthlySuggestions, monthlySuggestionsSpec,
      monthlySuggestionRule1, monthlySuggestionRule2, monthlySuggestionRule3,
      monthlySuggestionRule4]
    cases h1 : tops.find? (fun a =>
        a.activityType.name == "Social Media" || a.activityType.name == "Gaming") with
    | none =>
        cases h3 : tops.find? (fun a => a.activityType.name == "Exercise") <;>
          split_ifs <;> simp_all
    | some la =>
        cases h3 : tops.find? (fun a => a.activityType.name == "Exercise") <;>
          split_ifs <;> simp_all
  · simp only [generateMonthlySuggestions]
    rw [List.length_take]
    omega

/-! ## Claim C10 -/

/-- The client activity-context state of `part_002`: the visible activity
types, the logs, and the streak record. -/
structure AppState where
  activities : List ActivityType
  logs : List ActivityLog
  streak : Streak
deriving DecidableEq, Repr

/-- `deleteLog(logId)` of `part_002` lines 120–122:
`setLogs(prev => prev.filter(log => log.id !== logId))`; neither
`setStreak` nor `setActivities` is invoked. -/
def deleteLog (st : AppState) (logId : String) : AppState :=
  { st with logs := st.logs.filter (fun log => log.id != logId) }

/-- **C10.**  Deleting a log removes exactly the logs carrying the given
id and leaves the streak record and the activity-type set unchanged; in
particular any sequence of deletions (e.g. removing every log of the
current day) never changes the streak. -/
theorem deleteLog_frame (st : AppState) (logId : String) :
    (deleteLog st logId).streak = st.streak
    ∧ (deleteLog st logId).activities = st.activities
    ∧ (deleteLog st logId).logs = st.logs.filter (fun log => log.id != logId)
    ∧ (∀ l ∈ (deleteLog st logId).logs, l ∈ st.logs ∧ l.id ≠ logId)
    ∧ (∀ l ∈ st.logs, l.id ≠ logId → l ∈ (deleteLog st logId).logs)
    ∧ ∀ ids : List String, (ids.foldl deleteLog st).streak = st.streak
        ∧ (ids.foldl deleteLog st).activities = st.activities := by
  refine ⟨rfl, rfl, rfl, ?_, ?_, ?_⟩
  · intro l hl
    rw [deleteLog] at hl
    simp only [List.mem_filter] at hl
    exact ⟨hl.1, by simpa using hl.2⟩
  · intro l hl hne
    rw [deleteLog]
    simp only [List.mem_filter]
    exact ⟨hl, by simpa using hne⟩
  · intro ids
    induction ids generalizing st with
    | nil => exact ⟨rfl, rfl⟩
    | cons i rest ih =>
        have h := ih (deleteLog st i)
        simpa [deleteLog] using h

/-- Witness for C10: deleting `"l1"` from the demo state keeps the other
logs, the streak and the activity types. -/
theorem deleteLog_frame_witness :
    ({ id := "l2", activityTypeId := "99", date := 5, minutes := 30 } : ActivityLog)
      ∈ (deleteLog ⟨demoActs, demoLogs, ⟨2, 3, some 5⟩⟩ "l1").logs :=
  (deleteLog_frame ⟨demoActs, demoLogs, ⟨2, 3, some 5⟩⟩ "l1").2.2.2.2.1
    { id := "l2", activityTypeId := "99", date := 5, minutes := 30 }
    (by decide) (by decide)
